import Mathlib

/-!
Verification of the date-inference core of `set_dates_from_folders.py`.

The Python functions are shallowly embedded as Lean definitions:
strings become `String`/`List Char`, `datetime` objects become the
`Datetime` structure below (construction with validation mirrors the
`datetime(...)` constructor, which raises `ValueError` on an invalid
calendar date — modelled as `Option`), regexes are hand-compiled to
structural matchers that follow the alternation/backtracking order of
the Python `re` engine on the concrete patterns, and filesystem paths
become lists of path components (`List String`, root-to-leaf).

The `\d` character class is modelled as ASCII digits and `\s` as the
ASCII whitespace set; str.lower is modelled on ASCII letters.
-/

/-- Model of Python's `datetime.datetime` value: six calendar/time fields. -/
structure Datetime where
  year : Nat
  month : Nat
  day : Nat
  hour : Nat
  minute : Nat
  second : Nat
deriving DecidableEq

/-- Gregorian leap-year rule used by `datetime`. -/
def isLeapYear (y : Nat) : Bool :=
  (y % 4 == 0 && y % 100 != 0) || y % 400 == 0

/-- Number of days in a month, as validated by the `datetime` constructor. -/
def daysInMonth (y m : Nat) : Nat :=
  if m = 2 then (if isLeapYear y then 29 else 28)
  else if m = 4 ∨ m = 6 ∨ m = 9 ∨ m = 11 then 30
  else 31

/-- Model of the `datetime(year, month, day, hour, minute, second)`
constructor: returns `none` exactly when Python raises `ValueError`
(year outside `MINYEAR=1 .. MAXYEAR=9999`, month outside 1..12, day
outside the month, or a time field out of range). -/
def datetimeNew (y m d h mi s : Nat) : Option Datetime :=
  if 1 ≤ y ∧ y ≤ 9999 ∧ 1 ≤ m ∧ m ≤ 12 ∧ 1 ≤ d ∧ d ≤ daysInMonth y m
      ∧ h ≤ 23 ∧ mi ≤ 59 ∧ s ≤ 59 then
    some ⟨y, m, d, h, mi, s⟩
  else none

/-- Lexicographic comparison of `datetime` values (Python's `<=` on
`datetime` compares the field tuples lexicographically). -/
def Datetime.leb (a b : Datetime) : Bool :=
  if a.year ≠ b.year then a.year < b.year
  else if a.month ≠ b.month then a.month < b.month
  else if a.day ≠ b.day then a.day < b.day
  else if a.hour ≠ b.hour then a.hour < b.hour
  else if a.minute ≠ b.minute then a.minute < b.minute
  else a.second ≤ b.second

/-- ASCII whitespace, the characters matched by `\s` in the patterns
(Python's `\s` on `str`: space, tab, newline, carriage return,
vertical tab, form feed). -/
def isPySpace (c : Char) : Bool :=
  c = ' ' || c = '\t' || c = '\n' || c = '\r' ||
  c = Char.ofNat 11 || c = Char.ofNat 12

/-- Numeric value of an ASCII digit character. -/
def digitVal (c : Char) : Nat := c.toNat - 48

/-- Matches `\d{2}` at the head of the character list, returning the
two-digit value and the remaining characters. -/
def twoDigits : List Char → Option (Nat × List Char)
  | a :: b :: rest =>
      if a.isDigit && b.isDigit then some (digitVal a * 10 + digitVal b, rest)
      else none
  | _ => none

/-- Matches `\d{4}` at the head of the character list. -/
def fourDigits (s : List Char) : Option (Nat × List Char) :=
  match twoDigits s with
  | none => none
  | some (hi, r) =>
    match twoDigits r with
    | none => none
    | some (lo, r2) => some (hi * 100 + lo, r2)

/-- Does the list start with the given character? -/
def headIs (s : List Char) (c : Char) : Bool :=
  match s with
  | x :: _ => x = c
  | [] => false

/-- Zero-width lookahead `(?=[\s\-]|$)`: end of string, whitespace, or dash. -/
def lookSpaceDashEnd (s : List Char) : Bool :=
  match s with
  | [] => true
  | c :: _ => isPySpace c || c = '-'

/-- Zero-width lookahead `(?=\s|$)`: end of string or whitespace only. -/
def lookSpaceEnd (s : List Char) : Bool :=
  match s with
  | [] => true
  | c :: _ => isPySpace c

/-- The result of `DATE_PATTERN.match(name)`: the captured groups
(year always present, month/day optional) and `match.end()` (number of
characters consumed; the lookaheads are zero-width, so it is 4, 7 or 10). -/
structure DateMatch where
  year : Nat
  month? : Option Nat
  day? : Option Nat
  matchEnd : Nat
deriving DecidableEq

/-- Hand-compilation of
`DATE_PATTERN = ^(\d{4})(?:\.(\d{2})(?:\.(\d{2})(?=[\s\-]|$)|(?=[\s\-]|$))|(?=\s|$))`
anchored at the start of the name, following the `re` engine's
alternation order with backtracking: the `\.(\d{2})` branch is tried
first; within it the `\.(\d{2})(?=[\s\-]|$)` (day) alternative is tried
before the bare `(?=[\s\-]|$)` (month) lookahead; if both inner
alternatives fail the engine falls back to the `(?=\s|$)` (year)
alternative after the four year digits. -/
def datePatternMatch (s : List Char) : Option DateMatch :=
  match fourDigits s with
  | none => none
  | some (y, r4) =>
    let yearAlt : Option DateMatch :=
      if lookSpaceEnd r4 then some ⟨y, none, none, 4⟩ else none
    if headIs r4 '.' then
      match twoDigits r4.tail with
      | none => yearAlt
      | some (mo, r6) =>
        let monthAlt : Option DateMatch :=
          if lookSpaceDashEnd r6 then some ⟨y, some mo, none, 7⟩ else yearAlt
        if headIs r6 '.' then
          match twoDigits r6.tail with
          | none => monthAlt
          | some (d, r8) =>
            if lookSpaceDashEnd r8 then some ⟨y, some mo, some d, 10⟩
            else monthAlt
        else monthAlt
    else yearAlt

/-- Hand-compilation of `RANGE_PATTERN = -(\d{2})(?:\.(\d{2}))?` matched
at the start of the remainder (`RANGE_PATTERN.match(rest)`): a dash, a
two-digit group, and an optional `.` + two-digit group (the greedy
optional group backtracks to empty if `\.\d{2}` does not fit). -/
def rangePatternMatch (s : List Char) : Option (Nat × Option Nat) :=
  if headIs s '-' then
    match twoDigits s.tail with
    | none => none
    | some (a, r2) =>
      if headIs r2 '.' then
        match twoDigits r2.tail with
        | some (b, _) => some (a, some b)
        | none => some (a, none)
      else some (a, none)
  else none

/-- `extract_date_from_name(name)`: match `DATE_PATTERN`, default the
missing month/day groups to 1, and validate through the `datetime`
constructor at midday; `None` on no match or invalid calendar date. -/
def extract_date_from_name (name : String) : Option Datetime :=
  match datePatternMatch name.data with
  | none => none
  | some m =>
    let year := m.year
    let month := m.month?.getD 1
    let day := m.day?.getD 1
    datetimeNew year month day 12 0 0

/-- Model of the `FolderDateInfo` dataclass.  The Python field `end` is
named `range_end` here because `end` is a Lean keyword. -/
structure FolderDateInfo where
  start : Datetime
  precision : String
  range_end : Option Datetime
deriving DecidableEq

/-- The range-suffix block of `extract_folder_date_info` (source lines
178–198): match `RANGE_PATTERN` against the text right after the primary
token and build the range-end date according to the precision; a failed
match or a `ValueError` (the `except` clause) leaves the range as `None`. -/
def computeRangeEnd (year month : Nat) (precision : String) (rest : List Char) :
    Option Datetime :=
  match rangePatternMatch rest with
  | none => none
  | some (r1, r2?) =>
    if precision = "day" then
      match r2? with
      | some r2 => datetimeNew year r1 r2 12 0 0
      | none => datetimeNew year month r1 12 0 0
    else if precision = "month" then
      datetimeNew year r1 1 12 0 0
    else none

/-- `extract_folder_date_info(name)`: the full folder parser — primary
date (validated at midday), precision from which groups matched, and
the optional range suffix parsed from `name[match.end():]` with
`RANGE_PATTERN`; a `ValueError` while building the range end is caught
and leaves the range as `None`. -/
def extract_folder_date_info (name : String) : Option FolderDateInfo :=
  match datePatternMatch name.data with
  | none => none
  | some m =>
    let year := m.year
    let month := m.month?.getD 1
    let day := m.day?.getD 1
    match datetimeNew year month day 12 0 0 with
    | none => none
    | some start =>
      let precision : String :=
        if m.day?.isSome then "day"
        else if m.month?.isSome then "month"
        else "year"
      let rest := name.data.drop m.matchEnd
      some ⟨start, precision, computeRangeEnd year month precision rest⟩

/-- Body of `FILENAME_DATETIME_PATTERN` after the opening anchor:
`(\d{4})(\d{2})(\d{2})[_\-](\d{2})(\d{2})(\d{2})(?:[_\-.]|$)`,
matched at the head of the list; returns the six captured values. -/
def tsBody (s : List Char) : Option (Nat × Nat × Nat × Nat × Nat × Nat) :=
  match fourDigits s with
  | none => none
  | some (y, r) =>
  match twoDigits r with
  | none => none
  | some (mo, r1) =>
  match twoDigits r1 with
  | none => none
  | some (d, r2) =>
  match r2 with
  | [] => none
  | c :: r3 =>
    if c = '_' || c = '-' then
      match twoDigits r3 with
      | none => none
      | some (h, r4) =>
      match twoDigits r4 with
      | none => none
      | some (mi, r5) =>
      match twoDigits r5 with
      | none => none
      | some (se, r6) =>
        if (match r6 with
            | [] => true
            | c2 :: _ => c2 = '_' || c2 = '-' || c2 = '.') then
          some (y, mo, d, h, mi, se)
        else none
    else none

/-- `FILENAME_DATETIME_PATTERN.search(stem)`: the pattern opens with
`(?:^|[_\-])`; `re.search` scans start positions left to right, and at
each position tries `^` (zero-width, succeeds only at the true start)
before the one-character `[_\-]` alternative.  `atStart` records
whether the current position is the start of the whole string. -/
def filenameDatetimePatternSearch
    (s : List Char) (atStart : Bool) : Option (Nat × Nat × Nat × Nat × Nat × Nat) :=
  match s with
  | [] => none
  | c :: rest =>
    match (if atStart then tsBody s else none) with
    | some v => some v
    | none =>
      match (if c = '_' || c = '-' then tsBody rest else none) with
      | some v => some v
      | none => filenameDatetimePatternSearch rest false

/-- `extract_datetime_from_filename(stem)`: first match of the filename
timestamp pattern, validated through the `datetime` constructor
(`ValueError` ⇒ `None`, with no further searching). -/
def extract_datetime_from_filename (stem : String) : Option Datetime :=
  match filenameDatetimePatternSearch stem.data true with
  | none => none
  | some (y, mo, d, h, mi, s) => datetimeNew y mo d h mi s

/-- Index of the last `.` in the character list (`str.rfind('.')`),
or `none` when there is no dot. -/
def rfindDot : List Char → Option Nat
  | [] => none
  | c :: rest =>
    match rfindDot rest with
    | some i => some (i + 1)
    | none => if c = '.' then some 0 else none

/-- `PurePath.stem` on a bare file name: the name without its suffix,
where the suffix starts at the last dot `i` with `0 < i < len - 1`
(so hidden files and trailing dots keep the full name). -/
def pathStem (s : String) : String :=
  match rfindDot s.data with
  | none => s
  | some i =>
    if 0 < i ∧ i < s.data.length - 1 then String.mk (s.data.take i) else s

/-- `is_consistent(folder_info, file_dt)`: does the filename timestamp
agree with the folder date at the folder's precision (ranges included)?
The inner `datetime(file_dt.year, file_dt.month, file_dt.day, 12, 0, 0)`
is built from the fields of an existing `datetime`, so it never raises
and is modelled as a raw constructor application. -/
def is_consistent (folder_info : FolderDateInfo) (file_dt : Datetime) : Bool :=
  let fs := folder_info.start
  if folder_info.precision = "year" then
    match folder_info.range_end with
    | some e => decide (fs.year ≤ file_dt.year) && decide (file_dt.year ≤ e.year)
    | none => file_dt.year == fs.year
  else if folder_info.precision = "month" then
    if file_dt.year != fs.year then false
    else
      match folder_info.range_end with
      | some e => decide (fs.month ≤ file_dt.month) && decide (file_dt.month ≤ e.month)
      | none => file_dt.month == fs.month
  else if folder_info.precision = "day" then
    if file_dt.year != fs.year then false
    else
      match folder_info.range_end with
      | some e =>
        let file_date : Datetime := ⟨file_dt.year, file_dt.month, file_dt.day, 12, 0, 0⟩
        fs.leb file_date && file_date.leb e
      | none =>
        file_dt.year == fs.year && file_dt.month == fs.month && file_dt.day == fs.day
  else false

/-- Final-date selection of `run_refine_mode` (per file, after the folder
token has been found): folder start when the filename carries no
timestamp, the filename timestamp verbatim when consistent, and the
folder start on conflict. -/
def refine_final_date (folder_info : FolderDateInfo) (file_dt : Option Datetime) : Datetime :=
  match file_dt with
  | none => folder_info.start
  | some dt => if is_consistent folder_info dt then dt else folder_info.start

/-- `Path.name` of a path given as its list of components from the
filesystem root: the last component, or `""` for the root itself. -/
def pathName (p : List String) : String :=
  (p.getLast?).getD ""

/-- `find_folder_date_info_for_file`: the ancestor walk of refine mode.
`current` starts at the file's parent directory; each step parses the
bare directory name, returning immediately on success; the loop breaks
(after the parse attempt) when the archive root or the filesystem root
(`current == current.parent`, i.e. `dropLast` is a fixpoint) is reached. -/
def find_folder_date_info_for_file
    (current base : List String) : Option (FolderDateInfo × String) :=
  match extract_folder_date_info (pathName current) with
  | some info => some (info, pathName current)
  | none =>
    if h : current = base ∨ current.dropLast = current then none
    else find_folder_date_info_for_file current.dropLast base
termination_by current.length
decreasing_by
  simp_wf
  have hne : current ≠ [] := by
    intro h0
    exact h (Or.inr (by simp [h0]))
  exact List.length_pos.mpr hne

/-- The inline ancestor loop of `find_date_for_file` (non-refine mode):
same traversal as `find_folder_date_info_for_file` but applying the
lighter parser `extract_date_from_name` to each bare directory name. -/
def findDateWalk (current base : List String) : Option (Datetime × String) :=
  match extract_date_from_name (pathName current) with
  | some d => some (d, pathName current)
  | none =>
    if h : current = base ∨ current.dropLast = current then none
    else findDateWalk current.dropLast base
termination_by current.length
decreasing_by
  simp_wf
  have hne : current ≠ [] := by
    intro h0
    exact h (Or.inr (by simp [h0]))
  exact List.length_pos.mpr hne

/-- `find_date_for_file(file_path, base_dir)`: the priority selector.
The file is given by its parent directory (`parent`, as components) and
its bare name (`fileName`); the stem is tried first with
`extract_date_from_name`, then the ancestor walk.  Returns the Python
triple `(date, source_name, source_type)`. -/
def find_date_for_file
    (parent base : List String) (fileName : String) :
    Option Datetime × Option String × String :=
  let file_stem := pathStem fileName
  match extract_date_from_name file_stem with
  | some d => (some d, some file_stem, "file")
  | none =>
    match findDateWalk parent base with
    | some (d, nm) => (some d, some nm, "folder")
    | none => (none, none, "")

/-- The chain of directories the ancestor walk visits, nearest first:
the starting directory, then each `parent` in turn, ending at the
archive root (or the filesystem root) — mirrors the loop control of
`find_folder_date_info_for_file`. -/
def ancestorChain (current base : List String) : List (List String) :=
  current ::
    (if h : current = base ∨ current.dropLast = current then []
     else ancestorChain current.dropLast base)
termination_by current.length
decreasing_by
  simp_wf
  have hne : current ≠ [] := by
    intro h0
    exact h (Or.inr (by simp [h0]))
  exact List.length_pos.mpr hne

/-- The per-directory test of the ancestor walk: the parsed token
together with the directory's bare name, as the walk would return it. -/
def folderTokenOf (p : List String) : Option (FolderDateInfo × String) :=
  match extract_folder_date_info (pathName p) with
  | some info => some (info, pathName p)
  | none => none

/-- `check_filesystem_date(file_path, target_date)`: `True` when the
file's current mtime differs from `target_date.timestamp()` by strictly
less than one second.  The mtime is `none` when `stat` raises `OSError`
(the function then returns `False`); timestamps are modelled as exact
rationals (seconds). -/
def check_filesystem_date (mtime : Option ℚ) (target_ts : ℚ) : Bool :=
  match mtime with
  | none => false
  | some m => decide (|m - target_ts| < 1)

/-- The `exif_needs_update` test shared by `run_default_mode` and
`run_refine_mode`: the embedded date needs rewriting only when it is
present and differs from the target date. -/
def exif_needs_update (existing_exif : Option Datetime) (date : Datetime) : Bool :=
  match existing_exif with
  | none => false
  | some e => e != date

/-- The idempotent apply gate, identical in `run_default_mode` and
`run_refine_mode`: the file is skipped (`continue` before any write or
dry-run report of a pending write) exactly when
`fs_matches and not exif_needs_update`.  `target_ts` stands for
`date.timestamp()`. -/
def skip_gate (mtime : Option ℚ) (target_ts : ℚ)
    (existing_exif : Option Datetime) (date : Datetime) : Bool :=
  check_filesystem_date mtime target_ts && !(exif_needs_update existing_exif date)

/-- ASCII lower-casing of a string (`str.lower` restricted to ASCII). -/
def lowerAscii (s : List Char) : List Char :=
  s.map Char.toLower

/-- Is the first list a prefix of the second? -/
def listStartsWith : List Char → List Char → Bool
  | [], _ => true
  | _ :: _, [] => false
  | a :: as, b :: bs => a == b && listStartsWith as bs

/-- Python's substring test `needle in hay`. -/
def containsSub : List Char → List Char → Bool
  | [], needle => listStartsWith needle []
  | hay@(_ :: t), needle => listStartsWith needle hay || containsSub t needle

/-- `str.strip()`: remove leading and trailing whitespace. -/
def pyStrip (s : String) : String :=
  String.mk (((s.data.dropWhile fun c => isPySpace c).reverse.dropWhile
    fun c => isPySpace c).reverse)

/-- `ExifToolBatch.set_date` given the text the batch process wrote back
for this command (already read up to the sentinel): strips it, and
returns `(True, result)` when it mentions `updated`, otherwise
`(True, result or "OK")` — the first component is `True` on every path. -/
def batch_set_date (response : String) : Bool × String :=
  let result := pyStrip response
  if containsSub (lowerAscii result.data) "updated".data then (true, result)
  else (true, if result = "" then "OK" else result)

/-- The one-shot `set_exif_date`, parametrized by the completed
subprocess result (return code, stdout, stderr); the timeout and
exception paths, which also return `False`, are not modelled. -/
def set_exif_date_result (returncode : Int) (stdoutRaw stderrRaw : String) :
    Bool × String :=
  let stdout := pyStrip stdoutRaw
  let stderr := pyStrip stderrRaw
  if returncode = 0 then
    if containsSub (lowerAscii stdout.data) "updated".data ||
        containsSub (lowerAscii stdout.data) "image files read".data then
      (true, stdout)
    else (true, if stdout = "" then "OK" else stdout)
  else
    (false, "returncode=" ++ toString returncode ++ ", stderr=" ++ stderr
      ++ ", stdout=" ++ stdout)

/-- `_apply_date(file_path, date, exif, log)`: EXIF write through the
batch interface (when a batch handle is present, with response text
`exifResponse`), then the filesystem-date write (its outcome passed as
`fsResult`); returns `(success, extra_info)`. -/
def apply_date (exifResponse : Option String) (fsResult : Bool × String) :
    Bool × String :=
  let exif_ok := match exifResponse with
    | none => true
    | some resp => (batch_set_date resp).1
  if !fsResult.1 then (false, fsResult.2)
  else if exifResponse.isSome && !exif_ok then (true, "  (EXIF не записан)")
  else (true, "")

/-- A successful `datetime` construction returns exactly the record of
its arguments. -/
theorem datetimeNew_some_inv {y m d h mi s : Nat} {t : Datetime}
    (hv : datetimeNew y m d h mi s = some t) : t = ⟨y, m, d, h, mi, s⟩ := by
  unfold datetimeNew at hv
  split at hv
  · exact (Option.some_inj.mp hv).symm
  · exact absurd hv (by simp)

/-- A `datetime` construction known to succeed equals the record of its
arguments. -/
theorem datetimeNew_eq_of_isSome {y m d h mi s : Nat}
    (hv : (datetimeNew y m d h mi s).isSome = true) :
    datetimeNew y m d h mi s = some ⟨y, m, d, h, mi, s⟩ := by
  cases hd : datetimeNew y m d h mi s with
  | none => rw [hd] at hv; simp at hv
  | some t => exact congrArg some (datetimeNew_some_inv hd)

/-- C4: refinement reconciliation.  The final date of refine mode is the
folder token's start when the filename carries no timestamp, the
filename timestamp verbatim when `is_consistent` accepts it at the
folder's precision, and the folder start again on conflict; in
particular for folder `2019.01.02-05 Поездка` the file
`IMG_20190104_160000.jpg` refines to 2019-01-04 16:00:00 and the file
`IMG_20190110_160000.jpg` falls back to 2019-01-02 12:00:00. -/
theorem c4_refine_reconciliation :
    (∀ fi : FolderDateInfo, refine_final_date fi none = fi.start) ∧
    (∀ (fi : FolderDateInfo) (dt : Datetime), is_consistent fi dt = true →
      refine_final_date fi (some dt) = dt) ∧
    (∀ (fi : FolderDateInfo) (dt : Datetime), is_consistent fi dt = false →
      refine_final_date fi (some dt) = fi.start) ∧
    ((extract_folder_date_info "2019.01.02-05 Поездка").map
        (fun fi => refine_final_date fi
          (extract_datetime_from_filename (pathStem "IMG_20190104_160000.jpg"))) =
      some ⟨2019, 1, 4, 16, 0, 0⟩) ∧
    ((extract_folder_date_info "2019.01.02-05 Поездка").map
        (fun fi => refine_final_date fi
          (extract_datetime_from_filename (pathStem "IMG_20190110_160000.jpg"))) =
      some ⟨2019, 1, 2, 12, 0, 0⟩) := by
  refine ⟨fun fi => rfl, fun fi dt h => ?_, fun fi dt h => ?_, by decide, by decide⟩
  · simp [refine_final_date, h]
  · simp [refine_final_date, h]

/-- C4 witness: the reconciliation laws applied at the concrete folder
token of `2019.01.02-05 Поездка` and the timestamp 2019-01-04 16:00:00. -/
theorem c4_witness :
    is_consistent ⟨⟨2019, 1, 2, 12, 0, 0⟩, "day", some ⟨2019, 1, 5, 12, 0, 0⟩⟩
        ⟨2019, 1, 4, 16, 0, 0⟩ = true ∧
    refine_final_date ⟨⟨2019, 1, 2, 12, 0, 0⟩, "day", some ⟨2019, 1, 5, 12, 0, 0⟩⟩
        (some ⟨2019, 1, 4, 16, 0, 0⟩) = ⟨2019, 1, 4, 16, 0, 0⟩ :=
  ⟨by decide, c4_refine_reconciliation.2.1 _ _ (by decide)⟩

/-- C8: the idempotent apply gate.  A file with a resolved final date is
skipped exactly when its current mtime exists and differs from the
target timestamp by strictly less than one second and the existing
embedded date is absent or exactly equal to the final date; with no
embedded date the decision is exactly the filesystem check, so absence
of metadata never by itself causes an update. -/
theorem c8_idempotent_apply_gate :
    ∀ (mtime : Option ℚ) (target_ts : ℚ) (existing_exif : Option Datetime)
      (date : Datetime),
      (skip_gate mtime target_ts existing_exif date = true ↔
        ((∃ m, mtime = some m ∧ |m - target_ts| < 1) ∧
          (existing_exif = none ∨ existing_exif = some date))) ∧
      (existing_exif = none →
        skip_gate mtime target_ts existing_exif date =
          check_filesystem_date mtime target_ts) := by
  intro mtime target_ts existing_exif date
  constructor
  · cases mtime with
    | none => simp [skip_gate, check_filesystem_date]
    | some m =>
      cases existing_exif with
      | none => simp [skip_gate, check_filesystem_date, exif_needs_update]
      | some e =>
        by_cases he : e = date
        · subst he
          simp [skip_gate, check_filesystem_date, exif_needs_update]
        · simp [skip_gate, check_filesystem_date, exif_needs_update, he]
  · intro h
    subst h
    simp [skip_gate, exif_needs_update]

/-- C8 witness: the gate applied at mtime 100 s, target 100.5 s, no
embedded date — skipped. -/
theorem c8_witness :
    skip_gate (some 100) (201 / 2) none ⟨2023, 5, 15, 12, 0, 0⟩ = true :=
  ((c8_idempotent_apply_gate (some 100) (201 / 2) none ⟨2023, 5, 15, 12, 0, 0⟩).1).mpr
    ⟨⟨100, rfl, by rw [abs_lt]; constructor <;> norm_num⟩, Or.inl rfl⟩

/-- Both branches of `ExifToolBatch.set_date` return `True` as the
success flag. -/
theorem batch_set_date_fst (response : String) :
    (batch_set_date response).1 = true := by
  by_cases h : containsSub (lowerAscii (pyStrip response).data) "updated".data = true
  · simp [batch_set_date, h]
  · simp [batch_set_date, h]

/-- C10: the batch metadata writer never reports failure — for every
response text read back from the batch process, `ExifToolBatch.set_date`
returns `True`, unlike the one-shot `set_exif_date`, which returns
`False` for a non-zero exit code; consequently `_apply_date`'s success
flag equals the filesystem-write success flag alone, so a metadata-write
failure through the batch interface is never surfaced. -/
theorem c10_batch_write_never_fails :
    (∀ response : String, (batch_set_date response).1 = true) ∧
    (∃ (rc : Int) (out err : String), (set_exif_date_result rc out err).1 = false) ∧
    (∀ (exifResponse : Option String) (fsResult : Bool × String),
      (apply_date exifResponse fsResult).1 = fsResult.1) := by
  refine ⟨batch_set_date_fst, ⟨1, "", "", by decide⟩, ?_⟩
  intro exifResponse fsResult
  obtain ⟨ok, msg⟩ := fsResult
  cases ok with
  | false => rfl
  | true =>
    cases exifResponse with
    | none => rfl
    | some resp => simp [apply_date, batch_set_date_fst]

/-- A whitespace character is not the dot separator. -/
theorem isPySpace_ne_dot {c : Char} (h : isPySpace c = true) : c ≠ '.' := by
  intro heq
  subst heq
  exact absurd h (by decide)

/-- A whitespace character is not an ASCII digit. -/
theorem isPySpace_not_digit {c : Char} (h : isPySpace c = true) : c.isDigit = false := by
  simp only [isPySpace, Bool.or_eq_true, decide_eq_true_eq] at h
  rcases h with ((((h | h) | h) | h) | h) | h <;> subst h <;> decide

/-- An ASCII digit is not whitespace. -/
theorem isDigit_not_space {c : Char} (h : c.isDigit = true) : isPySpace c = false := by
  cases hsp : isPySpace c with
  | false => rfl
  | true => rw [isPySpace_not_digit hsp] at h; exact absurd h (by decide)

/-- An ASCII digit is not the dot separator. -/
theorem isDigit_ne_dot {c : Char} (h : c.isDigit = true) : c ≠ '.' := by
  intro heq
  subst heq
  exact absurd h (by decide)

/-- An ASCII digit is not the dash. -/
theorem isDigit_ne_dash {c : Char} (h : c.isDigit = true) : c ≠ '-' := by
  intro heq
  subst heq
  exact absurd h (by decide)

/-- After a token whose lookahead `[\s\-]|$` succeeded, the remainder
cannot begin with the dot separator. -/
theorem lookSpaceDashEnd_headIs_dot {s : List Char}
    (h : lookSpaceDashEnd s = true) : headIs s '.' = false := by
  cases s with
  | nil => rfl
  | cons c t =>
    simp only [lookSpaceDashEnd, Bool.or_eq_true, decide_eq_true_eq] at h
    have hne : c ≠ '.' := by
      rcases h with h | h
      · exact isPySpace_ne_dot h
      · subst h; decide
    simp [headIs, hne]

/-- After the year-only lookahead `\s|$`, the remainder cannot begin
with the dot separator. -/
theorem lookSpaceEnd_headIs_dot {s : List Char}
    (h : lookSpaceEnd s = true) : headIs s '.' = false := by
  cases s with
  | nil => rfl
  | cons c t =>
    simp only [lookSpaceEnd] at h
    simp [headIs, isPySpace_ne_dot h]

/-- `DATE_PATTERN` on `YYYY` + (whitespace | end): the year-only match. -/
theorem datePatternMatch_year_shape (a b c d : Char) (rest : List Char)
    (ha : a.isDigit = true) (hb : b.isDigit = true)
    (hc : c.isDigit = true) (hd : d.isDigit = true)
    (hrest : lookSpaceEnd rest = true) :
    datePatternMatch (a :: b :: c :: d :: rest) =
      some ⟨(digitVal a * 10 + digitVal b) * 100 + (digitVal c * 10 + digitVal d),
        none, none, 4⟩ := by
  have hdot : headIs rest '.' = false := lookSpaceEnd_headIs_dot hrest
  simp [datePatternMatch, fourDigits, twoDigits, ha, hb, hc, hd, hrest, hdot]

/-- `DATE_PATTERN` on `YYYY.MM` + (whitespace | dash | end): the month match. -/
theorem datePatternMatch_month_shape (a b c d m n : Char) (rest : List Char)
    (ha : a.isDigit = true) (hb : b.isDigit = true)
    (hc : c.isDigit = true) (hd : d.isDigit = true)
    (hm : m.isDigit = true) (hn : n.isDigit = true)
    (hrest : lookSpaceDashEnd rest = true) :
    datePatternMatch (a :: b :: c :: d :: '.' :: m :: n :: rest) =
      some ⟨(digitVal a * 10 + digitVal b) * 100 + (digitVal c * 10 + digitVal d),
        some (digitVal m * 10 + digitVal n), none, 7⟩ := by
  have hdot : headIs rest '.' = false := lookSpaceDashEnd_headIs_dot hrest
  simp only [headIs] at hdot
  simp [datePatternMatch, fourDigits, twoDigits, headIs, ha, hb, hc, hd, hm, hn,
    hrest, hdot]

/-- `DATE_PATTERN` on `YYYY.MM.DD` + (whitespace | dash | end): the day match. -/
theorem datePatternMatch_day_shape (a b c d m n p q : Char) (rest : List Char)
    (ha : a.isDigit = true) (hb : b.isDigit = true)
    (hc : c.isDigit = true) (hd : d.isDigit = true)
    (hm : m.isDigit = true) (hn : n.isDigit = true)
    (hp : p.isDigit = true) (hq : q.isDigit = true)
    (hrest : lookSpaceDashEnd rest = true) :
    datePatternMatch (a :: b :: c :: d :: '.' :: m :: n :: '.' :: p :: q :: rest) =
      some ⟨(digitVal a * 10 + digitVal b) * 100 + (digitVal c * 10 + digitVal d),
        some (digitVal m * 10 + digitVal n), some (digitVal p * 10 + digitVal q),
        10⟩ := by
  have hskip : lookSpaceDashEnd ('.' :: p :: q :: rest) = false := by
    simp [lookSpaceDashEnd, isPySpace]
  simp [datePatternMatch, fourDigits, twoDigits, headIs, ha, hb, hc, hd, hm, hn,
    hp, hq, hrest, hskip]

/-- C9: equivalence of the two parser variants — `extract_date_from_name`
returns `None` exactly when `extract_folder_date_info` does, and when
both succeed the point value of the lighter variant equals the full
parser's start value. -/
theorem c9_parser_equivalence :
    ∀ name : String,
      ((extract_date_from_name name = none) ↔ (extract_folder_date_info name = none)) ∧
      (∀ (d : Datetime) (info : FolderDateInfo),
        extract_date_from_name name = some d →
        extract_folder_date_info name = some info → info.start = d) := by
  intro name
  cases hm : datePatternMatch name.data with
  | none =>
    constructor
    · simp [extract_date_from_name, extract_folder_date_info, hm]
    · intro d info h1 _
      rw [extract_date_from_name, hm] at h1
      exact absurd h1 (by simp)
  | some m =>
    cases hv : datetimeNew m.year (m.month?.getD 1) (m.day?.getD 1) 12 0 0 with
    | none =>
      constructor
      · simp [extract_date_from_name, extract_folder_date_info, hm, hv]
      · intro d info h1 _
        rw [extract_date_from_name, hm] at h1
        simp only [hv] at h1
        exact absurd h1 (by simp)
    | some t =>
      constructor
      · simp [extract_date_from_name, extract_folder_date_info, hm, hv]
      · intro d info h1 h2
        rw [extract_date_from_name, hm] at h1
        simp only [hv, Option.some_inj] at h1
        rw [extract_folder_date_info, hm] at h2
        simp only [hv, Option.some_inj] at h2
        rw [← h2, ← h1]

/-- When the pattern matched and the primary date is valid, the folder
parser always returns a token whose start is that date, whatever the
text after the primary token looks like. -/
theorem extract_folder_date_info_shape {name : String} {m : DateMatch} {t : Datetime}
    (hm : datePatternMatch name.data = some m)
    (hv : datetimeNew m.year (m.month?.getD 1) (m.day?.getD 1) 12 0 0 = some t) :
    ∃ re, extract_folder_date_info name =
      some ⟨t, if m.day?.isSome then "day" else if m.month?.isSome then "month"
        else "year", re⟩ := by
  have h : extract_folder_date_info name =
      some ⟨t,
        if m.day?.isSome then "day" else if m.month?.isSome then "month" else "year",
        computeRangeEnd m.year (m.month?.getD 1)
          (if m.day?.isSome then "day" else if m.month?.isSome then "month"
            else "year")
          (name.data.drop m.matchEnd)⟩ := by
    rw [extract_folder_date_info, hm]
    simp only [hv]
  exact ⟨_, h⟩

/-- C9 witness: the two parser variants agree on `2020.06 лето`. -/
theorem c9_witness :
    extract_date_from_name "2020.06 лето" = some ⟨2020, 6, 1, 12, 0, 0⟩ ∧
    FolderDateInfo.start ⟨⟨2020, 6, 1, 12, 0, 0⟩, "month", none⟩ =
      ⟨2020, 6, 1, 12, 0, 0⟩ :=
  ⟨by decide,
    (c9_parser_equivalence "2020.06 лето").2 ⟨2020, 6, 1, 12, 0, 0⟩
      ⟨⟨2020, 6, 1, 12, 0, 0⟩, "month", none⟩ (by decide) (by decide)⟩

/-- C1 counterexample: the name `2023.13 x` starts with `YYYY.MM`
followed by a space, yet the folder parser yields no token at all
(month 13 fails calendar validation), contradicting the claim that
every such name yields a month-precision token. -/
theorem c1_counterexample : extract_folder_date_info "2023.13 x" = none := by
  decide

/-- C1 (amended): the dot-separated prefix grammar, provided the numeric
values form a valid calendar date (year within `datetime`'s 1..9999,
month 1..12, day within the month’s length — the `0000`/month-13/Feb-31
prefixes are rejected): `YYYY` + (whitespace | end) gives a year token
valued January 1 at noon with no range; `YYYY.MM` + (space | dash | end)
gives a month token valued the 1st at noon; `YYYY.MM.DD` + (space | dash
| end) gives a day token valued that day at noon. -/
theorem c1_amended_dot_grammar :
    (∀ (a b c d : Char) (rest : List Char),
      a.isDigit = true → b.isDigit = true → c.isDigit = true → d.isDigit = true →
      lookSpaceEnd rest = true →
      ∀ t, datetimeNew ((digitVal a * 10 + digitVal b) * 100 +
          (digitVal c * 10 + digitVal d)) 1 1 12 0 0 = some t →
        extract_folder_date_info ⟨a :: b :: c :: d :: rest⟩ =
          some ⟨t, "year", none⟩) ∧
    (∀ (a b c d m n : Char) (rest : List Char),
      a.isDigit = true → b.isDigit = true → c.isDigit = true → d.isDigit = true →
      m.isDigit = true → n.isDigit = true →
      lookSpaceDashEnd rest = true →
      ∀ t, datetimeNew ((digitVal a * 10 + digitVal b) * 100 +
          (digitVal c * 10 + digitVal d)) (digitVal m * 10 + digitVal n) 1
          12 0 0 = some t →
        ∃ info, extract_folder_date_info ⟨a :: b :: c :: d :: '.' :: m :: n :: rest⟩ =
          some info ∧ info.start = t ∧ info.precision = "month") ∧
    (∀ (a b c d m n p q : Char) (rest : List Char),
      a.isDigit = true → b.isDigit = true → c.isDigit = true → d.isDigit = true →
      m.isDigit = true → n.isDigit = true → p.isDigit = true → q.isDigit = true →
      lookSpaceDashEnd rest = true →
      ∀ t, datetimeNew ((digitVal a * 10 + digitVal b) * 100 +
          (digitVal c * 10 + digitVal d)) (digitVal m * 10 + digitVal n)
          (digitVal p * 10 + digitVal q) 12 0 0 = some t →
        ∃ info, extract_folder_date_info
            ⟨a :: b :: c :: d :: '.' :: m :: n :: '.' :: p :: q :: rest⟩ =
          some info ∧ info.start = t ∧ info.precision = "day") := by
  refine ⟨?_, ?_, ?_⟩
  · intro a b c d rest ha hb hc hd hrest t hv
    have hpat : datePatternMatch (String.data ⟨a :: b :: c :: d :: rest⟩) =
        some ⟨(digitVal a * 10 + digitVal b) * 100 + (digitVal c * 10 + digitVal d),
          none, none, 4⟩ :=
      datePatternMatch_year_shape a b c d rest ha hb hc hd hrest
    rw [extract_folder_date_info, hpat]
    simp only [Option.getD_none, hv, Option.isSome_none]
    have hdash : headIs rest '-' = false := by
      cases rest with
      | nil => rfl
      | cons x l =>
        simp only [lookSpaceEnd] at hrest
        have : x ≠ '-' := by
          intro hx; subst hx; exact absurd hrest (by decide)
        simp [headIs, this]
    simp [computeRangeEnd, rangePatternMatch, hdash]
  · intro a b c d m n rest ha hb hc hd hm hn hrest t hv
    have hpat : datePatternMatch
        (String.data ⟨a :: b :: c :: d :: '.' :: m :: n :: rest⟩) =
        some ⟨(digitVal a * 10 + digitVal b) * 100 + (digitVal c * 10 + digitVal d),
          some (digitVal m * 10 + digitVal n), none, 7⟩ :=
      datePatternMatch_month_shape a b c d m n rest ha hb hc hd hm hn hrest
    obtain ⟨re, hre⟩ := extract_folder_date_info_shape hpat (by simpa using hv)
    exact ⟨_, hre, rfl, rfl⟩
  · intro a b c d m n p q rest ha hb hc hd hm hn hp hq hrest t hv
    have hpat : datePatternMatch
        (String.data ⟨a :: b :: c :: d :: '.' :: m :: n :: '.' :: p :: q :: rest⟩) =
        some ⟨(digitVal a * 10 + digitVal b) * 100 + (digitVal c * 10 + digitVal d),
          some (digitVal m * 10 + digitVal n), some (digitVal p * 10 + digitVal q),
          10⟩ :=
      datePatternMatch_day_shape a b c d m n p q rest ha hb hc hd hm hn hp hq hrest
    obtain ⟨re, hre⟩ := extract_folder_date_info_shape hpat (by simpa using hv)
    exact ⟨_, hre, rfl, rfl⟩

/-- C1 witness: the amended grammar applied to the concrete names
`2018`, `2018.01 x` and `2026.01.01 x`. -/
theorem c1_witness :
    extract_folder_date_info "2018" = some ⟨⟨2018, 1, 1, 12, 0, 0⟩, "year", none⟩ ∧
    (∃ info, extract_folder_date_info "2018.01 x" = some info ∧
      info.start = ⟨2018, 1, 1, 12, 0, 0⟩ ∧ info.precision = "month") ∧
    (∃ info, extract_folder_date_info "2026.01.01 x" = some info ∧
      info.start = ⟨2026, 1, 1, 12, 0, 0⟩ ∧ info.precision = "day") :=
  ⟨c1_amended_dot_grammar.1 '2' '0' '1' '8' [] (by decide) (by decide)
      (by decide) (by decide) (by decide) _ (by decide),
    c1_amended_dot_grammar.2.1 '2' '0' '1' '8' '0' '1'
      [' ', 'x'] (by decide) (by decide) (by decide) (by decide) (by decide)
      (by decide) (by decide) _ (by decide),
    c1_amended_dot_grammar.2.2 '2' '0' '2' '6' '0' '1' '0' '1'
      [' ', 'x'] (by decide) (by decide) (by decide) (by decide) (by decide)
      (by decide) (by decide) (by decide) (by decide) _ (by decide)⟩

/-- When `DATE_PATTERN` does not match, both parser variants return `None`. -/
theorem both_none_of_pattern_none {name : String}
    (h : datePatternMatch name.data = none) :
    extract_date_from_name name = none ∧ extract_folder_date_info name = none := by
  constructor
  · rw [extract_date_from_name, h]
  · rw [extract_folder_date_info, h]

/-- When `DATE_PATTERN` matches but the primary date fails calendar
validation, both parser variants return `None`. -/
theorem both_none_of_invalid_date {name : String} {m : DateMatch}
    (hm : datePatternMatch name.data = some m)
    (hv : datetimeNew m.year (m.month?.getD 1) (m.day?.getD 1) 12 0 0 = none) :
    extract_date_from_name name = none ∧ extract_folder_date_info name = none := by
  constructor
  · rw [extract_date_from_name, hm]
    simp only [hv]
  · rw [extract_folder_date_info, hm]
    simp only [hv]

/-- C2: the three rejection families of the name parser.  (1) A dash
immediately after the four year digits defeats every alternative of the
pattern, so any name beginning `YYYY-` — in particular `YYYY-MM-DD`
forms — yields no date.  (2) A run of five or more digits (a compact
form like `20180101` with no dot separators) yields no date.  (3) A
dot-separated `YYYY.MM` or `YYYY.MM.DD` prefix whose numbers fail
calendar validation yields no date.  Both parser variants reject. -/
theorem c2_rejection_families :
    (∀ (a b c d : Char) (rest : List Char),
      a.isDigit = true → b.isDigit = true → c.isDigit = true → d.isDigit = true →
      extract_date_from_name ⟨a :: b :: c :: d :: '-' :: rest⟩ = none ∧
      extract_folder_date_info ⟨a :: b :: c :: d :: '-' :: rest⟩ = none) ∧
    (∀ name : List Char, (∀ ch ∈ name, ch.isDigit = true) → 5 ≤ name.length →
      extract_date_from_name ⟨name⟩ = none ∧
      extract_folder_date_info ⟨name⟩ = none) ∧
    (∀ (a b c d m n : Char) (rest : List Char),
      a.isDigit = true → b.isDigit = true → c.isDigit = true → d.isDigit = true →
      m.isDigit = true → n.isDigit = true → lookSpaceDashEnd rest = true →
      datetimeNew ((digitVal a * 10 + digitVal b) * 100 +
        (digitVal c * 10 + digitVal d)) (digitVal m * 10 + digitVal n) 1
        12 0 0 = none →
      extract_date_from_name ⟨a :: b :: c :: d :: '.' :: m :: n :: rest⟩ = none ∧
      extract_folder_date_info ⟨a :: b :: c :: d :: '.' :: m :: n :: rest⟩ = none) ∧
    (∀ (a b c d m n p q : Char) (rest : List Char),
      a.isDigit = true → b.isDigit = true → c.isDigit = true → d.isDigit = true →
      m.isDigit = true → n.isDigit = true → p.isDigit = true → q.isDigit = true →
      lookSpaceDashEnd rest = true →
      datetimeNew ((digitVal a * 10 + digitVal b) * 100 +
        (digitVal c * 10 + digitVal d)) (digitVal m * 10 + digitVal n)
        (digitVal p * 10 + digitVal q) 12 0 0 = none →
      extract_date_from_name
        ⟨a :: b :: c :: d :: '.' :: m :: n :: '.' :: p :: q :: rest⟩ = none ∧
      extract_folder_date_info
        ⟨a :: b :: c :: d :: '.' :: m :: n :: '.' :: p :: q :: rest⟩ = none) := by
  refine ⟨?_, ?_, ?_, ?_⟩
  · intro a b c d rest ha hb hc hd
    apply both_none_of_pattern_none
    show datePatternMatch (a :: b :: c :: d :: '-' :: rest) = none
    simp [datePatternMatch, fourDigits, twoDigits, headIs, lookSpaceEnd, isPySpace,
      ha, hb, hc, hd]
  · intro name hdig hlen
    match name, hlen with
    | a :: b :: c :: d :: e :: rest, _ =>
      have ha := hdig a (by simp)
      have hb := hdig b (by simp)
      have hc := hdig c (by simp)
      have hd := hdig d (by simp)
      have he := hdig e (by simp)
      apply both_none_of_pattern_none
      show datePatternMatch (a :: b :: c :: d :: e :: rest) = none
      have h1 : headIs (e :: rest) '.' = false := by
        simp [headIs, isDigit_ne_dot he]
      have h2 : lookSpaceEnd (e :: rest) = false := by
        simp [lookSpaceEnd, isDigit_not_space he]
      simp [datePatternMatch, fourDigits, twoDigits, ha, hb, hc, hd, h1, h2]
  · intro a b c d m n rest ha hb hc hd hm hn hrest hv
    exact both_none_of_invalid_date
      (datePatternMatch_month_shape a b c d m n rest ha hb hc hd hm hn hrest)
      (by simpa using hv)
  · intro a b c d m n p q rest ha hb hc hd hm hn hp hq hrest hv
    exact both_none_of_invalid_date
      (datePatternMatch_day_shape a b c d m n p q rest ha hb hc hd hm hn hp hq hrest)
      (by simpa using hv)

/-- C2 witness: the rejection families at the concrete names
`2009-09-25 Concert`, `20180101`, `2023.02.31 x` and `2024.13.01 y`. -/
theorem c2_witness :
    (extract_date_from_name "2009-09-25 Concert" = none ∧
      extract_folder_date_info "2009-09-25 Concert" = none) ∧
    (extract_date_from_name "20180101" = none ∧
      extract_folder_date_info "20180101" = none) ∧
    (extract_date_from_name "2024.13.01 y" = none ∧
      extract_folder_date_info "2024.13.01 y" = none) ∧
    (extract_date_from_name "2023.02.31 x" = none ∧
      extract_folder_date_info "2023.02.31 x" = none) :=
  ⟨c2_rejection_families.1 '2' '0' '0' '9'
      "09-25 Concert".data (by decide) (by decide) (by decide) (by decide),
    c2_rejection_families.2.1 "20180101".data (by decide) (by decide),
    c2_rejection_families.2.2.2 '2' '0' '2' '4' '1' '3' '0' '1' " y".data
      (by decide) (by decide) (by decide) (by decide) (by decide) (by decide)
      (by decide) (by decide) (by decide) (by decide),
    c2_rejection_families.2.2.2 '2' '0' '2' '3' '0' '2' '3' '1' " x".data
      (by decide) (by decide) (by decide) (by decide) (by decide) (by decide)
      (by decide) (by decide) (by decide) (by decide)⟩

/-- C3: range-suffix parsing.  The three documented range forms parse to
the stated start/precision/range-end; a malformed suffix (`RANGE_PATTERN`
does not match) or a range end failing calendar validation leaves the
token in place with its single-point value and no range — the parser
never errors and never drops the token once the primary date is valid. -/
theorem c3_range_suffix_parsing :
    extract_folder_date_info "2018.01.29-31 НГ" =
      some ⟨⟨2018, 1, 29, 12, 0, 0⟩, "day", some ⟨2018, 1, 31, 12, 0, 0⟩⟩ ∧
    extract_folder_date_info "2024.06.28-07.05 X" =
      some ⟨⟨2024, 6, 28, 12, 0, 0⟩, "day", some ⟨2024, 7, 5, 12, 0, 0⟩⟩ ∧
    extract_folder_date_info "2018.01-03 X" =
      some ⟨⟨2018, 1, 1, 12, 0, 0⟩, "month", some ⟨2018, 3, 1, 12, 0, 0⟩⟩ ∧
    extract_folder_date_info "2018.01.29-x" =
      some ⟨⟨2018, 1, 29, 12, 0, 0⟩, "day", none⟩ ∧
    extract_folder_date_info "2023.02.27-31 x" =
      some ⟨⟨2023, 2, 27, 12, 0, 0⟩, "day", none⟩ ∧
    (∀ (name : String) (d : Datetime), extract_date_from_name name = some d →
      ∃ info, extract_folder_date_info name = some info ∧ info.start = d) ∧
    (∀ (y mo : Nat) (p : String) (rest : List Char),
      rangePatternMatch rest = none → computeRangeEnd y mo p rest = none) ∧
    (∀ (y mo : Nat) (rest : List Char) (r1 : Nat) (r2? : Option Nat),
      rangePatternMatch rest = some (r1, r2?) →
      ((r2? = none → datetimeNew y mo r1 12 0 0 = none →
          computeRangeEnd y mo "day" rest = none) ∧
       (∀ r2, r2? = some r2 → datetimeNew y r1 r2 12 0 0 = none →
          computeRangeEnd y mo "day" rest = none) ∧
       (datetimeNew y r1 1 12 0 0 = none →
          computeRangeEnd y mo "month" rest = none))) := by
  refine ⟨by decide, by decide, by decide, by decide, by decide, ?_, ?_, ?_⟩
  · intro name d hd
    cases hm : datePatternMatch name.data with
    | none =>
      rw [extract_date_from_name, hm] at hd
      exact absurd hd (by simp)
    | some m =>
      rw [extract_date_from_name, hm] at hd
      simp only at hd
      obtain ⟨re, hre⟩ := extract_folder_date_info_shape hm hd
      exact ⟨_, hre, rfl⟩
  · intro y mo p rest hr
    simp [computeRangeEnd, hr]
  · intro y mo rest r1 r2? hr
    refine ⟨fun h2 hv => ?_, fun r2 h2 hv => ?_, fun hv => ?_⟩
    · subst h2
      simp [computeRangeEnd, hr, hv]
    · subst h2
      simp [computeRangeEnd, hr, hv]
    · simp [computeRangeEnd, hr, hv]

/-- C3 witness: token preservation applied at `2023.02.27-31 x` (invalid
range end) and the malformed-suffix rule at the text `-x`. -/
theorem c3_witness :
    (∃ info, extract_folder_date_info "2023.02.27-31 x" = some info ∧
      info.start = ⟨2023, 2, 27, 12, 0, 0⟩) ∧
    computeRangeEnd 2018 1 "day" "-x".data = none :=
  ⟨c3_range_suffix_parsing.2.2.2.2.2.1 "2023.02.27-31 x" ⟨2023, 2, 27, 12, 0, 0⟩
      (by decide),
    c3_range_suffix_parsing.2.2.2.2.2.2.1 2018 1 "day" "-x".data (by decide)⟩

/-- A range end produced by the range-suffix block carries the token's
year and midday time, is produced only for day or month precision, and
at month precision always names the 1st of the month. -/
theorem computeRangeEnd_some_inv {y mo : Nat} {p : String} {rest : List Char}
    {e : Datetime} (h : computeRangeEnd y mo p rest = some e) :
    (p = "day" ∨ p = "month") ∧ e.year = y ∧ e.hour = 12 ∧ e.minute = 0 ∧
      e.second = 0 ∧ (p = "month" → e.day = 1) := by
  rw [computeRangeEnd] at h
  cases hr : rangePatternMatch rest with
  | none => rw [hr] at h; exact absurd h (by simp)
  | some pr =>
    obtain ⟨r1, r2?⟩ := pr
    rw [hr] at h
    by_cases hpd : p = "day"
    · subst hpd
      simp only [if_pos rfl] at h
      cases r2? with
      | some r2 =>
        simp only at h
        have he := datetimeNew_some_inv h
        subst he
        refine ⟨Or.inl rfl, rfl, rfl, rfl, rfl, fun hpm => ?_⟩
        exact absurd hpm (by decide)
      | none =>
        simp only at h
        have he := datetimeNew_some_inv h
        subst he
        refine ⟨Or.inl rfl, rfl, rfl, rfl, rfl, fun hpm => ?_⟩
        exact absurd hpm (by decide)
    · by_cases hpm : p = "month"
      · subst hpm
        simp only [if_neg hpd, if_pos rfl] at h
        have he := datetimeNew_some_inv h
        subst he
        exact ⟨Or.inr rfl, rfl, rfl, rfl, rfl, fun _ => rfl⟩
      · simp only [if_neg hpd, if_neg hpm] at h
        exact absurd h (by simp)

/-- C7 counterexample: `2018.01.29-05 x` parses to a day-precision token
with start 2018-01-29 and range end 2018-01-05 — the range end precedes
the start, so the claimed invariant `range_end ≥ value at the precision
unit` does not hold. -/
theorem c7_counterexample :
    extract_folder_date_info "2018.01.29-05 x" =
      some ⟨⟨2018, 1, 29, 12, 0, 0⟩, "day", some ⟨2018, 1, 5, 12, 0, 0⟩⟩ ∧
    Datetime.leb ⟨2018, 1, 29, 12, 0, 0⟩ ⟨2018, 1, 5, 12, 0, 0⟩ = false := by
  decide

/-- C7 (amended): the parser attaches a range end only to month- or
day-precision tokens; the range end always lies in the token's own year,
is normalized to midday, and at month precision names the 1st of its
month — but the parser does not check ordering, so the range end may
denote an earlier day or month than the start value. -/
theorem c7_amended_range_invariant :
    ∀ (name : String) (info : FolderDateInfo) (e : Datetime),
      extract_folder_date_info name = some info → info.range_end = some e →
      info.precision ≠ "year" ∧ e.year = info.start.year ∧ e.hour = 12 ∧
        e.minute = 0 ∧ e.second = 0 ∧ (info.precision = "month" → e.day = 1) := by
  intro name info e hinfo hre
  cases hm : datePatternMatch name.data with
  | none =>
    rw [extract_folder_date_info, hm] at hinfo
    exact absurd hinfo (by simp)
  | some m =>
    cases hv : datetimeNew m.year (m.month?.getD 1) (m.day?.getD 1) 12 0 0 with
    | none =>
      rw [extract_folder_date_info, hm] at hinfo
      simp only [hv] at hinfo
      exact absurd hinfo (by simp)
    | some t =>
      rw [extract_folder_date_info, hm] at hinfo
      simp only [hv, Option.some_inj] at hinfo
      have hstart : info.start = t := by rw [← hinfo]
      have hprec : info.precision =
          (if m.day?.isSome then "day" else if m.month?.isSome then "month"
            else "year") := by rw [← hinfo]
      have hrend : info.range_end =
          computeRangeEnd m.year (m.month?.getD 1)
            (if m.day?.isSome then "day" else if m.month?.isSome then "month"
              else "year")
            (name.data.drop m.matchEnd) := by rw [← hinfo]
      rw [hrend] at hre
      obtain ⟨hp, hy, hh, hmi, hs, hd1⟩ := computeRangeEnd_some_inv hre
      have ht := datetimeNew_some_inv hv
      refine ⟨?_, ?_, hh, hmi, hs, ?_⟩
      · rw [hprec]
        rcases hp with hp | hp <;> rw [hp] <;> decide
      · rw [hy, hstart, ht]
      · intro hpm
        exact hd1 (by rw [← hprec, hpm])

/-- C7 witness: the amended invariant at `2018.01.29-31 НГ`. -/
theorem c7_witness :
    (FolderDateInfo.precision
        ⟨⟨2018, 1, 29, 12, 0, 0⟩, "day", some ⟨2018, 1, 31, 12, 0, 0⟩⟩ ≠ "year") ∧
    Datetime.year ⟨2018, 1, 31, 12, 0, 0⟩ =
      (FolderDateInfo.start
        ⟨⟨2018, 1, 29, 12, 0, 0⟩, "day", some ⟨2018, 1, 31, 12, 0, 0⟩⟩).year ∧
    Datetime.hour ⟨2018, 1, 31, 12, 0, 0⟩ = 12 ∧
    Datetime.minute ⟨2018, 1, 31, 12, 0, 0⟩ = 0 ∧
    Datetime.second ⟨2018, 1, 31, 12, 0, 0⟩ = 0 ∧
    (FolderDateInfo.precision
        ⟨⟨2018, 1, 29, 12, 0, 0⟩, "day", some ⟨2018, 1, 31, 12, 0, 0⟩⟩ = "month" →
      Datetime.day ⟨2018, 1, 31, 12, 0, 0⟩ = 1) :=
  c7_amended_range_invariant "2018.01.29-31 НГ"
    ⟨⟨2018, 1, 29, 12, 0, 0⟩, "day", some ⟨2018, 1, 31, 12, 0, 0⟩⟩
    ⟨2018, 1, 31, 12, 0, 0⟩ (by decide) (by decide)

/-- The visited-directory chain is never empty (the starting directory
is always tested). -/
theorem ancestorChain_ne_nil (current base : List String) :
    ancestorChain current base ≠ [] := by
  rw [ancestorChain]
  simp

/-- One step of the chain below a non-root directory: the directory
itself, then the chain of its parent. -/
theorem ancestorChain_step (base ds' : List String) (d : String) :
    ancestorChain (base ++ (ds' ++ [d])) base =
      (base ++ (ds' ++ [d])) :: ancestorChain (base ++ ds') base := by
  have h1 : ¬(base ++ (ds' ++ [d]) = base) := by
    intro h
    have := congrArg List.length h
    simp at this
  have h2 : ¬((base ++ (ds' ++ [d])).dropLast = base ++ (ds' ++ [d])) := by
    intro h
    have := congrArg List.length h
    simp [List.length_dropLast] at this
  have hdrop : (base ++ (ds' ++ [d])).dropLast = base ++ ds' := by
    rw [← List.append_assoc, List.dropLast_concat]
  rw [ancestorChain]
  rw [dif_neg (by tauto), hdrop]

/-- The ancestor walk is the first-match search over the chain of
visited directories, nearest directory first. -/
theorem walk_eq_findSome (current base : List String) :
    find_folder_date_info_for_file current base =
      (ancestorChain current base).findSome? folderTokenOf := by
  rw [find_folder_date_info_for_file, ancestorChain]
  cases hx : extract_folder_date_info (pathName current) with
  | some info =>
    simp [List.findSome?_cons, folderTokenOf, hx]
  | none =>
    by_cases h : current = base ∨ current.dropLast = current
    · simp [h, List.findSome?_cons, folderTokenOf, hx]
    · rw [dif_neg h, dif_neg h]
      rw [walk_eq_findSome current.dropLast base]
      simp [List.findSome?_cons, folderTokenOf, hx]
termination_by current.length
decreasing_by
  simp_wf
  have hne : current ≠ [] := fun h0 => h (Or.inr (by simp [h0]))
  exact List.length_pos.mpr hne

/-- Closed form of the visited chain for a file under the archive root:
the directories `base ++ ds.take j` for `j = ds.length` down to `0`. -/
theorem ancestorChain_closed (base : List String) :
    ∀ ds : List String, ancestorChain (base ++ ds) base =
      (List.range (ds.length + 1)).map
        (fun k => base ++ ds.take (ds.length - k)) := by
  intro ds
  induction ds using List.reverseRecOn with
  | nil =>
    rw [ancestorChain]
    simp
  | append_singleton ds' d ih =>
    rw [ancestorChain_step, ih]
    have hlen : (ds' ++ [d]).length = ds'.length + 1 := by simp
    rw [hlen]
    conv_rhs => rw [List.range_succ_eq_map]
    simp only [List.map_cons, List.map_map, Nat.sub_zero]
    congr 1
    · rw [← hlen, List.take_length]
    · apply List.map_congr_left
      intro k hk
      simp only [Function.comp_apply]
      have hk' : k < ds'.length + 1 := List.mem_range.mp hk
      have hsub : ds'.length + 1 - Nat.succ k = ds'.length - k := by omega
      rw [hsub, List.take_append_of_le_length (by omega)]

/-- The per-directory test yields nothing exactly when the name parser
rejects the directory's bare name. -/
theorem folderTokenOf_eq_none {p : List String} :
    folderTokenOf p = none ↔ extract_folder_date_info (pathName p) = none := by
  rw [folderTokenOf]
  cases h : extract_folder_date_info (pathName p) <;> simp

/-- C5: ancestor resolution.  For a file whose parent directory is
`base ++ ds` under the archive root `base`: the walk equals the
first-match search over the visited chain (nearest directory first);
that chain is exactly the ancestors `base ++ ds.take j` for
`j = ds.length` down to `0`; its last entry is the archive root itself
(the root is tested before the loop terminates); the walk returns `none`
exactly when no visited directory's name parses; and a parsing immediate
parent is returned at once with its own bare name as the source,
shadowing any dated ancestor further up. -/
theorem c5_ancestor_resolution :
    (∀ current base : List String,
      find_folder_date_info_for_file current base =
        (ancestorChain current base).findSome? folderTokenOf) ∧
    (∀ base ds : List String,
      ancestorChain (base ++ ds) base =
        (List.range (ds.length + 1)).map
          (fun k => base ++ ds.take (ds.length - k))) ∧
    (∀ base ds : List String,
      (ancestorChain (base ++ ds) base).getLast? = some base) ∧
    (∀ current base : List String,
      (find_folder_date_info_for_file current base = none ↔
        ∀ p ∈ ancestorChain current base,
          extract_folder_date_info (pathName p) = none)) ∧
    (∀ (current base : List String) (info : FolderDateInfo),
      extract_folder_date_info (pathName current) = some info →
      find_folder_date_info_for_file current base =
        some (info, pathName current)) := by
  refine ⟨walk_eq_findSome, ancestorChain_closed, ?_, ?_, ?_⟩
  · intro base ds
    rw [ancestorChain_closed, List.range_succ, List.map_append]
    simp [List.getLast?_concat]
  · intro current base
    rw [walk_eq_findSome, List.findSome?_eq_none_iff]
    constructor
    · intro h p hp
      exact folderTokenOf_eq_none.mp (h p hp)
    · intro h p hp
      exact folderTokenOf_eq_none.mpr (h p hp)
  · intro current base info hx
    rw [find_folder_date_info_for_file, hx]

/-- C5 witness: the nearest-ancestor rule applied at a concrete dated
immediate parent under an archive root. -/
theorem c5_witness :
    find_folder_date_info_for_file ["root", "undated", "2020.05.06 x"] ["root"] =
      some (⟨⟨2020, 5, 6, 12, 0, 0⟩, "day", none⟩,
        pathName ["root", "undated", "2020.05.06 x"]) :=
  c5_ancestor_resolution.2.2.2.2 ["root", "undated", "2020.05.06 x"] ["root"]
    ⟨⟨2020, 5, 6, 12, 0, 0⟩, "day", none⟩ (by decide)

/-- C6: filename priority in non-refine mode.  If the file's
name-without-extension parses, that date is returned with source kind
`file` regardless of the surrounding folders; only otherwise is the
ancestor walk consulted; if the walk also fails the file is unresolved;
and the concrete file `2025.03.12 Встреча.jpg` inside folder
`2025.03.10 Работа` resolves to 2025-03-12, not 2025-03-10. -/
theorem c6_filename_priority :
    (∀ (parent base : List String) (fileName : String) (d : Datetime),
      extract_date_from_name (pathStem fileName) = some d →
      find_date_for_file parent base fileName =
        (some d, some (pathStem fileName), "file")) ∧
    (∀ (parent base : List String) (fileName : String) (d : Datetime)
        (nm : String),
      extract_date_from_name (pathStem fileName) = none →
      findDateWalk parent base = some (d, nm) →
      find_date_for_file parent base fileName = (some d, some nm, "folder")) ∧
    (∀ (parent base : List String) (fileName : String),
      extract_date_from_name (pathStem fileName) = none →
      findDateWalk parent base = none →
      find_date_for_file parent base fileName = (none, none, "")) ∧
    (find_date_for_file ["root", "2025.03.10 Работа"] ["root"]
        "2025.03.12 Встреча.jpg" =
      (some ⟨2025, 3, 12, 12, 0, 0⟩, some "2025.03.12 Встреча", "file")) := by
  refine ⟨?_, ?_, ?_, ?_⟩
  · intro parent base fileName d hd
    rw [find_date_for_file, hd]
  · intro parent base fileName d nm hd hw
    rw [find_date_for_file, hd, hw]
  · intro parent base fileName hd hw
    rw [find_date_for_file, hd, hw]
  · decide

/-- C6 witness: the priority rule applied at the concrete file name
`2025.03.12 Встреча.jpg` whose stem parses. -/
theorem c6_witness :
    find_date_for_file ["root2", "2025.03.10 Работа"] ["root2"]
        "2025.03.12 Встреча.jpg" =
      (some ⟨2025, 3, 12, 12, 0, 0⟩, some "2025.03.12 Встреча", "file") :=
  c6_filename_priority.1 ["root2", "2025.03.10 Работа"] ["root2"]
    "2025.03.12 Встреча.jpg" ⟨2025, 3, 12, 12, 0, 0⟩ (by decide)
